import Mathlib

/-!
Verification of the To-do-list application's core components: the
Recycle-Bin Manager and the Calendar/Date Index, as implemented in
`frontend/js/storage.js`, `frontend/js/calendar.js` and the backend
`models/todo.js` / todo controller.

Timestamps are modelled as natural numbers (milliseconds since epoch);
JS `undefined`/`null` fields are modelled as `Option`.  A JS object field
that may be absent (such as `category`, which the backend constructor
never sets) is an `Option` whose `none` stands for the absent field.
-/

namespace TodoApp

/-- A task as stored by the backend `Todo` class: `id`, `title`,
`description`, `dueDate`, `completed`, `createdAt`; plus `category`,
which the backend constructor never sets (`none` = absent field) but
which `Todo.update`'s spread-merge can introduce. -/
structure Task where
  id : Nat
  title : String
  description : String
  dueDate : Option String
  category : Option String
  completed : Bool
  createdAt : Nat
  deriving Repr, DecidableEq

/-- A recycled task: the task snapshot plus the `deletedAt` stamp added
by `Storage.deleteTask` before the snapshot is pushed into localStorage. -/
structure RecycledTask where
  task : Task
  deletedAt : Nat
  deriving Repr, DecidableEq

/-- The backend in-memory store: the `todos` array and the `nextId`
counter of `models/todo.js`. -/
structure Store where
  todos : List Task
  nextId : Nat
  deriving Repr, DecidableEq

/-- Combined system state: backend store plus the client's recycle bin
(the `recycledTasks` array kept in localStorage). -/
structure SysState where
  store : Store
  bin : List RecycledTask
  deriving Repr, DecidableEq

/-- The body of a POST /api/todos request as the backend reads it:
`Todo.create` destructures exactly `{ title, description, dueDate }`;
any `category` field in the body is listed here to show it is ignored. -/
structure CreatePayload where
  title : String
  description : Option String := none
  dueDate : Option String := none
  category : Option String := none
  deriving Repr, DecidableEq

/-- A PUT /api/todos/:id body: an arbitrary subset of fields, spread
onto the stored object by `Todo.update` (`{...old, ...updates, id}`).
`none` means the field is absent from the payload. -/
structure UpdatePayload where
  id : Option Nat := none
  title : Option String := none
  description : Option String := none
  dueDate : Option (Option String) := none
  category : Option String := none
  completed : Option Bool := none
  createdAt : Option Nat := none
  deriving Repr, DecidableEq

/-- Backend `Todo.create` + `new Todo(...)`: assigns `id = nextId++`,
keeps `title`, defaults `description` to the empty string and `dueDate`
to null, sets `completed = false` and `createdAt = now`.  The payload's
`category` is not read: the new task has no category field. -/
def Todo.create (st : Store) (p : CreatePayload) (now : Nat) : Task × Store :=
  let t : Task :=
    { id := st.nextId
      title := p.title
      description := p.description.getD ""
      dueDate := p.dueDate
      category := none
      completed := false
      createdAt := now }
  (t, { todos := st.todos.concat t, nextId := st.nextId + 1 })

/-- The controller's `createTodo`: rejects a falsy `title` (HTTP 400),
otherwise calls `Todo.create`. -/
def createTodoEndpoint (st : Store) (p : CreatePayload) (now : Nat) :
    Option (Task × Store) :=
  if p.title = "" then none else some (Todo.create st p now)

/-- The spread-merge `{...old, ...updates}` followed by the explicit
`id: parseInt(id)` override performed by `Todo.update`. -/
def mergeTodo (t : Task) (u : UpdatePayload) (pathId : Nat) : Task :=
  let merged : Task :=
    { id := u.id.getD t.id
      title := u.title.getD t.title
      description := u.description.getD t.description
      dueDate := u.dueDate.getD t.dueDate
      category := match u.category with | some c => some c | none => t.category
      completed := u.completed.getD t.completed
      createdAt := u.createdAt.getD t.createdAt }
  { merged with id := pathId }

/-- `findIndex` + in-place replacement of `Todo.update`: replace the
first task whose id matches, returning the updated task and list. -/
def updateList (todos : List Task) (pathId : Nat) (u : UpdatePayload) :
    Option (Task × List Task) :=
  match todos with
  | [] => none
  | t :: rest =>
    if t.id = pathId then
      let t' := mergeTodo t u pathId
      some (t', t' :: rest)
    else
      match updateList rest pathId u with
      | none => none
      | some (t', rest') => some (t', t :: rest')

/-- Backend `Todo.update`: `null` (here `none`) when the id is absent. -/
def Todo.update (st : Store) (pathId : Nat) (u : UpdatePayload) :
    Option (Task × Store) :=
  match updateList st.todos pathId u with
  | none => none
  | some (t', todos') => some (t', { st with todos := todos' })

/-- `findIndex` + `splice(index, 1)` of `Todo.delete`: remove the first
task whose id matches; an absent id leaves the list unchanged. -/
def removeFirstById (todos : List Task) (taskId : Nat) : List Task :=
  match todos with
  | [] => []
  | t :: rest => if t.id = taskId then rest else t :: removeFirstById rest taskId

/-- Backend `Todo.delete`: `false` (hence HTTP 404) when the id is
absent, otherwise splices the task out and returns `true`. -/
def Todo.delete (st : Store) (taskId : Nat) : Bool × Store :=
  if (st.todos.find? (fun t => t.id = taskId)).isSome then
    (true, { st with todos := removeFirstById st.todos taskId })
  else (false, st)

/-- One step of the `forEach` loop of `Storage.getDatesWithTasks`:
`if (task.dueDate) dates.add(task.dueDate)` — a truthy `dueDate`
(non-null, non-empty) is inserted into the Set, which keeps
first-occurrence order and ignores elements already present. -/
def dateStep (acc : List String) (t : Task) : List String :=
  match t.dueDate with
  | some d => if d = "" then acc else if d ∈ acc then acc else acc.concat d
  | none => acc

/-- `Storage.getDatesWithTasks` (storage.js): walk the task list,
inserting each truthy `dueDate` into a Set; return the Set as an
array. -/
def getDatesWithTasks (tasks : List Task) : List String :=
  tasks.foldl dateStep []

/-- `Storage.getTasksByDate`: tasks whose `dueDate` equals the date. -/
def getTasksByDate (tasks : List Task) (date : String) : List Task :=
  tasks.filter (fun t => t.dueDate = some date)

/-- `Storage.deleteTask` (recycle), success path: fetch the list, find
the task; when present, stamp `deletedAt = now`, push the snapshot into
the bin, issue the backend delete, and return the refreshed list; when
absent, skip everything and return the current list. -/
def Storage.deleteTask (s : SysState) (taskId now : Nat) :
    List Task × SysState :=
  match s.store.todos.find? (fun t => t.id = taskId) with
  | none => (s.store.todos, s)
  | some t =>
    let bin' := s.bin.concat { task := t, deletedAt := now }
    let store' := (Todo.delete s.store taskId).2
    (store'.todos, { store := store', bin := bin' })

/-- `findIndex` + `splice(index, 1)` on the recycle bin, as performed by
`Storage.restoreTask`: the first entry whose id matches, and the bin
without it. -/
def restoreFromBin (bin : List RecycledTask) (taskId : Nat) :
    Option (RecycledTask × List RecycledTask) :=
  match bin with
  | [] => none
  | r :: rest =>
    if r.task.id = taskId then some (r, rest)
    else
      match restoreFromBin rest taskId with
      | none => none
      | some (r', rest') => some (r', r :: rest')

/-- The create request `Storage.restoreTask` submits: the snapshot with
`deletedAt` deleted, POSTed to the create endpoint (which reads only
title/description/dueDate). -/
def restorePayload (r : RecycledTask) : CreatePayload :=
  { title := r.task.title
    description := some r.task.description
    dueDate := r.task.dueDate
    category := r.task.category }

/-- `Storage.restoreTask`: find the bin entry by id; if absent, return
the bin unchanged.  If present, POST the snapshot (minus `deletedAt`) to
the create endpoint via `addTask` (which swallows a validation failure),
then splice the entry out of the bin and return the spliced bin. -/
def Storage.restoreTask (s : SysState) (taskId now : Nat) :
    List RecycledTask × SysState :=
  match restoreFromBin s.bin taskId with
  | none => (s.bin, s)
  | some (r, bin') =>
    let store' :=
      match createTodoEndpoint s.store (restorePayload r) now with
      | some (_, st') => st'
      | none => s.store
    (bin', { store := store', bin := bin' })

/-- `Storage.permanentlyDeleteTask`: keep exactly the bin entries whose
id differs from `taskId`. -/
def permanentlyDeleteTask (bin : List RecycledTask) (taskId : Nat) :
    List RecycledTask :=
  bin.filter (fun r => r.task.id ≠ taskId)

/-- `Storage.emptyRecycleBin`: unconditionally clear the bin. -/
def emptyRecycleBin (_bin : List RecycledTask) : List RecycledTask := []

/-- `Storage.cleanupRecycleBin`: `cutoff` is the timestamp thirty days
before now; keep exactly the entries with `deletedAt` strictly newer
than the cutoff (`deletedDate > thirtyDaysAgo`). -/
def cleanupRecycleBin (bin : List RecycledTask) (cutoff : Nat) :
    List RecycledTask :=
  bin.filter (fun r => cutoff < r.deletedAt)

/-! ### Failure model for the Storage layer (claim about catch blocks)

Each network round trip either yields a value or fails (fetch rejection
or a non-ok HTTP status, which the code turns into a thrown Error). -/

/-- Outcome of one network round trip. -/
inductive NetResult (α : Type) where
  | ok (val : α)
  | failed (msg : String)
  deriving Repr, DecidableEq

/-- The try-block of `Storage.getTasks`: a failed fetch (or a non-ok
response) becomes a thrown error. -/
def fetchTasks (r : NetResult (List Task)) : Except String (List Task) :=
  match r with
  | .ok ts => .ok ts
  | .failed m => .error m

/-- `Storage.getTasks` with its catch block: a thrown error is caught
and an empty list is returned instead. -/
def getTasksCaught (r : NetResult (List Task)) : List Task :=
  match fetchTasks r with
  | .ok ts => ts
  | .error _ => []

/-- `Storage.getTasks` as its caller observes it: the catch turns every
failure into an ordinary (empty-list) return value. -/
def getTasksOutcome (r : NetResult (List Task)) : Except String (List Task) :=
  match fetchTasks r with
  | .ok ts => .ok ts
  | .error _ => .ok []

/-- The network outcomes a single `Storage.deleteTask` call can see:
the initial `getTasks` read, the DELETE request, the final `getTasks`
read of the try block, and the `getTasks` read in the catch block. -/
structure DeleteScenario where
  fetch1 : NetResult (List Task)
  deleteOk : Bool
  fetch2 : NetResult (List Task)
  fetchCatch : NetResult (List Task)
  deriving Repr, DecidableEq

/-- The try-block of `Storage.deleteTask`: read the list (itself a
caught read), push the stamped snapshot into the bin *before* issuing
the DELETE, and throw when the DELETE response is not ok.  The bin is
returned in both outcomes because localStorage was already written. -/
def deleteTaskTry (bin : List RecycledTask) (taskId now : Nat)
    (sc : DeleteScenario) : Except String (List Task) × List RecycledTask :=
  match (getTasksCaught sc.fetch1).find? (fun t => t.id = taskId) with
  | some t =>
    if sc.deleteOk then
      (.ok (getTasksCaught sc.fetch2), bin.concat { task := t, deletedAt := now })
    else (.error "Failed to delete task", bin.concat { task := t, deletedAt := now })
  | none => (.ok (getTasksCaught sc.fetch2), bin)

/-- `Storage.deleteTask` as its caller observes it: the catch block
swallows the thrown error and returns a fresh best-effort read. -/
def deleteTaskOutcome (bin : List RecycledTask) (taskId now : Nat)
    (sc : DeleteScenario) : Except String (List Task) × List RecycledTask :=
  match deleteTaskTry bin taskId now sc with
  | (.ok l, b) => (.ok l, b)
  | (.error _, b) => (.ok (getTasksCaught sc.fetchCatch), b)

/-! ### Calendar module (calendar.js)

Dates carry no time component; months are 1-based here (JS `Date`
months are 0-based, but `generateCalendar` only uses them through the
`Date` helpers modelled below). -/

/-- A plain calendar date, as compared by `isSameDay`. -/
structure YMD where
  year : Nat
  month : Nat
  day : Nat
  deriving Repr, DecidableEq

/-- `isSameDay`: componentwise comparison of year, month and day. -/
def isSameDay (a b : YMD) : Bool :=
  a.year == b.year && a.month == b.month && a.day == b.day

/-- Gregorian leap-year rule, as implemented by the JS `Date` library
the calendar relies on. -/
def isLeapYear (y : Nat) : Bool :=
  (y % 4 == 0 && y % 100 != 0) || y % 400 == 0

/-- `new Date(year, month + 1, 0).getDate()`: the number of days in the
month (1 = January .. 12 = December; other inputs unused by the app). -/
def daysInMonth (y m : Nat) : Nat :=
  match m with
  | 1 => 31
  | 2 => if isLeapYear y then 29 else 28
  | 3 => 31
  | 4 => 30
  | 5 => 31
  | 6 => 30
  | 7 => 31
  | 8 => 31
  | 9 => 30
  | 10 => 31
  | 11 => 30
  | 12 => 31
  | _ => 0

/-- Sakamoto month offset table used to compute the weekday. -/
def monthOffset (m : Nat) : Nat :=
  match m with
  | 1 => 0
  | 2 => 3
  | 3 => 2
  | 4 => 5
  | 5 => 0
  | 6 => 3
  | 7 => 5
  | 8 => 1
  | 9 => 4
  | 10 => 6
  | 11 => 2
  | 12 => 4
  | _ => 0

/-- `new Date(y, m - 1, d).getDay()`: day of the week with Sunday = 0,
computed by Sakamoto's congruence. -/
def dayOfWeek (y m d : Nat) : Nat :=
  let ya := if m < 3 then y - 1 else y
  (ya + ya / 4 - ya / 100 + ya / 400 + monthOffset m + d) % 7

/-- Zero-pad a day or month number to two digits (`padStart(2, '0')`). -/
def pad2 (n : Nat) : String :=
  if n < 10 then "0" ++ toString n else toString n

/-- `Calendar.formatDate`: the `YYYY-MM-DD` string of a date. -/
def formatDate (y m d : Nat) : String :=
  toString y ++ "-" ++ pad2 m ++ "-" ++ pad2 d

/-- One cell of the month grid: either padding from an adjacent month,
or a day of the current month with its three flags. -/
inductive Cell where
  | otherMonth (day : Nat)
  | current (day : Nat) (isToday isSelected hasTasks : Bool)
  deriving Repr, DecidableEq

/-- Whether a cell is adjacent-month padding. -/
def Cell.isOtherMonth : Cell → Bool
  | .otherMonth _ => true
  | .current _ _ _ _ => false

/-- The day number displayed in a cell. -/
def Cell.dayNum : Cell → Nat
  | .otherMonth d => d
  | .current d _ _ _ => d

/-- The leading loop of `generateCalendar`: for `i` from
`startingDayOfWeek - 1` down to `0`, a previous-month cell numbered
`prevMonthLastDay - i`. -/
def leadingCells (sdw prevLast : Nat) : List Cell :=
  (List.range sdw).map (fun k => Cell.otherMonth (prevLast - (sdw - 1 - k)))

/-- The middle loop of `generateCalendar`: days `1 .. totalDays` of the
current month, each flagged against today, the selected date and the
set of dates with tasks. -/
def currentCells (year month : Nat) (today selected : YMD)
    (dwt : List String) (totalDays : Nat) : List Cell :=
  (List.range totalDays).map (fun k =>
    let d := k + 1
    Cell.current d (isSameDay ⟨year, month, d⟩ today)
      (isSameDay ⟨year, month, d⟩ selected)
      (dwt.contains (formatDate year month d)))

/-- The trailing loop of `generateCalendar`: next-month cells numbered
from 1, filling the grid to `42 - (startingDayOfWeek + totalDays)`. -/
def trailingCells (sdw totalDays : Nat) : List Cell :=
  (List.range (42 - (sdw + totalDays))).map (fun k => Cell.otherMonth (k + 1))

/-- `Calendar.generateCalendar`: previous-month padding up to the
month's starting weekday (`firstDay.getDay()`), the month's days, then
next-month padding filling the grid to 42. -/
def generateCalendar (year month : Nat) (today selected : YMD)
    (dwt : List String) : List Cell :=
  leadingCells (dayOfWeek year month 1)
      (if month = 1 then daysInMonth (year - 1) 12 else daysInMonth year (month - 1))
    ++ currentCells year month today selected dwt (daysInMonth year month)
    ++ trailingCells (dayOfWeek year month 1) (daysInMonth year month)

/-! ### Sample data used by witnesses and counterexamples -/

/-- A sample task with the given id, title and due date. -/
def sampleTask (i : Nat) (title : String) (due : Option String) : Task :=
  { id := i, title := title, description := "", dueDate := due,
    category := none, completed := false, createdAt := 0 }

/-- A bin entry recycled at time 100. -/
def boundaryEntry : RecycledTask :=
  { task := sampleTask 1 "t" none, deletedAt := 100 }

/-- A stray bin entry used by the permanent-delete witness. -/
def strayEntry : RecycledTask :=
  { task := sampleTask 2 "s" none, deletedAt := 5 }

/-! ### Lemmas about the date index -/

/-- Membership after one step of the date-collecting loop. -/
theorem mem_dateStep (acc : List String) (t : Task) (d : String) :
    d ∈ dateStep acc t ↔ d ∈ acc ∨ (d ≠ "" ∧ t.dueDate = some d) := by
  unfold dateStep
  cases hdue : t.dueDate with
  | none => simp
  | some e =>
    by_cases h1 : e = ""
    · subst h1
      simp only [if_pos rfl, Option.some_inj]
      constructor
      · exact fun h => Or.inl h
      · rintro (h | ⟨hne, rfl⟩)
        · exact h
        · exact absurd rfl hne
    · simp only [if_neg h1]
      by_cases h2 : e ∈ acc
      · rw [if_pos h2]
        simp only [Option.some_inj]
        constructor
        · exact fun h => Or.inl h
        · rintro (h | ⟨hne, rfl⟩)
          · exact h
          · exact h2
      · rw [if_neg h2, List.concat_eq_append, List.mem_append]
        simp only [List.mem_singleton, Option.some_inj]
        constructor
        · rintro (h | rfl)
          · exact Or.inl h
          · exact Or.inr ⟨h1, rfl⟩
        · rintro (h | ⟨hne, rfl⟩)
          · exact Or.inl h
          · exact Or.inr rfl

/-- One step of the date-collecting loop preserves distinctness. -/
theorem nodup_dateStep (acc : List String) (t : Task) (h : acc.Nodup) :
    (dateStep acc t).Nodup := by
  unfold dateStep
  cases t.dueDate with
  | none => exact h
  | some e =>
    by_cases h1 : e = ""
    · simp [h1, h]
    · simp only [if_neg h1]
      by_cases h2 : e ∈ acc
      · simp [h2, h]
      · simp [h2, List.concat_eq_append, List.nodup_append, h]

/-- Membership in the full date-collecting fold. -/
theorem mem_datesFold (tasks : List Task) :
    ∀ (acc : List String) (d : String),
      d ∈ tasks.foldl dateStep acc ↔
        d ∈ acc ∨ (d ≠ "" ∧ ∃ t, t ∈ tasks ∧ t.dueDate = some d) := by
  induction tasks with
  | nil => intro acc d; simp
  | cons t ts ih =>
    intro acc d
    rw [List.foldl_cons, ih, mem_dateStep]
    constructor
    · rintro ((h | ⟨hne, hdue⟩) | ⟨hne, t', ht', hdue⟩)
      · exact Or.inl h
      · exact Or.inr ⟨hne, t, List.mem_cons_self t ts, hdue⟩
      · exact Or.inr ⟨hne, t', List.mem_cons_of_mem t ht', hdue⟩
    · rintro (h | ⟨hne, t', ht', hdue⟩)
      · exact Or.inl (Or.inl h)
      · rcases List.mem_cons.mp ht' with rfl | h2
        · exact Or.inl (Or.inr ⟨hne, hdue⟩)
        · exact Or.inr ⟨hne, t', h2, hdue⟩

/-- The date-collecting fold preserves distinctness. -/
theorem nodup_datesFold (tasks : List Task) :
    ∀ acc : List String, acc.Nodup → (tasks.foldl dateStep acc).Nodup := by
  induction tasks with
  | nil => exact fun acc h => h
  | cons t ts ih => exact fun acc h => ih _ (nodup_dateStep _ _ h)

/-- C6: `datesWithTasks()` returns exactly the set of distinct truthy
due-date values of the current tasks — no duplicates, every returned
date has at least one task, tasks without a due date contribute
nothing — and on dueDates {2024-01-05, 2024-01-05, 2024-02-01, null}
the result is exactly {2024-01-05, 2024-02-01}. -/
theorem datesWithTasks_distinct_and_complete :
    (∀ tasks : List Task, (getDatesWithTasks tasks).Nodup) ∧
    (∀ (tasks : List Task) (d : String),
        d ∈ getDatesWithTasks tasks ↔
          d ≠ "" ∧ ∃ t, t ∈ tasks ∧ t.dueDate = some d) ∧
    getDatesWithTasks
        [sampleTask 1 "a" (some "2024-01-05"), sampleTask 2 "b" (some "2024-01-05"),
         sampleTask 3 "c" (some "2024-02-01"), sampleTask 4 "d" none]
      = ["2024-01-05", "2024-02-01"] := by
  refine ⟨fun tasks => nodup_datesFold tasks [] List.nodup_nil,
    fun tasks d => ?_, by decide⟩
  rw [getDatesWithTasks, mem_datesFold]
  simp

/-- C1 (counterexample): a bin entry whose `deletedAt` equals the
cutoff exactly is removed by `cleanupRecycleBin`, not retained. -/
theorem cleanup_boundary_removed_cex :
    boundaryEntry.deletedAt = 100 ∧
      boundaryEntry ∉ cleanupRecycleBin [boundaryEntry] 100 := by decide

/-- C1 (amended): `cleanupRecycleBin` retains exactly the entries whose
`deletedAt` is strictly newer than the cutoff `now - 30 days`; it
removes every entry with `deletedAt ≤ cutoff`, so an entry exactly at
the boundary is removed. -/
theorem cleanup_removes_upto_cutoff (bin : List RecycledTask) (cutoff : Nat)
    (r : RecycledTask) :
    r ∈ cleanupRecycleBin bin cutoff ↔ r ∈ bin ∧ cutoff < r.deletedAt := by
  simp [cleanupRecycleBin, List.mem_filter]

/-- C8: `permanentlyDeleteTask` removes exactly the bin entries whose
id matches and nothing else, is idempotent, and leaves the bin
unchanged when the id is absent. -/
theorem permanentlyDelete_exact_and_idempotent :
    (∀ (bin : List RecycledTask) (taskId : Nat) (r : RecycledTask),
        r ∈ permanentlyDeleteTask bin taskId ↔ r ∈ bin ∧ r.task.id ≠ taskId) ∧
    (∀ (bin : List RecycledTask) (taskId : Nat),
        permanentlyDeleteTask (permanentlyDeleteTask bin taskId) taskId
          = permanentlyDeleteTask bin taskId) ∧
    (∀ (bin : List RecycledTask) (taskId : Nat),
        (∀ r ∈ bin, r.task.id ≠ taskId) → permanentlyDeleteTask bin taskId = bin) := by
  have hmem : ∀ (bin : List RecycledTask) (taskId : Nat) (r : RecycledTask),
      r ∈ permanentlyDeleteTask bin taskId ↔ r ∈ bin ∧ r.task.id ≠ taskId := by
    intro bin taskId r
    simp [permanentlyDeleteTask, List.mem_filter]
  have hself : ∀ (bin : List RecycledTask) (taskId : Nat),
      (∀ r ∈ bin, r.task.id ≠ taskId) → permanentlyDeleteTask bin taskId = bin := by
    intro bin taskId h
    exact List.filter_eq_self.mpr (fun r hr => by simpa using h r hr)
  exact ⟨hmem, fun bin taskId =>
    hself _ _ (fun r hr => ((hmem bin taskId r).mp hr).2), hself⟩

/-- C8 (witness): deleting an id absent from a concrete one-entry bin
leaves the bin unchanged. -/
theorem permanentlyDelete_absent_witness :
    permanentlyDeleteTask [strayEntry] 999 = [strayEntry] :=
  permanentlyDelete_exact_and_idempotent.2.2 [strayEntry] 999 (by decide)

/-! ### Lemmas about finding and removing tasks by id -/

/-- In a store whose ids are distinct, finding a member's id returns
that member. -/
theorem find_by_id_of_nodup (todos : List Task) (T : Task)
    (hN : (todos.map Task.id).Nodup) (hT : T ∈ todos) :
    todos.find? (fun t => t.id = T.id) = some T := by
  induction todos with
  | nil => cases hT
  | cons t ts ih =>
    rw [List.map_cons, List.nodup_cons] at hN
    rcases List.mem_cons.mp hT with rfl | hmem
    · exact List.find?_cons_of_pos _ (by simp)
    · have hne : t.id ≠ T.id := by
        intro he
        exact hN.1 (he ▸ List.mem_map_of_mem Task.id hmem)
      rw [List.find?_cons_of_neg _ (by simp [hne])]
      exact ih hN.2 hmem

/-- After splicing out the first task with a given id from a list of
distinct ids, no task with that id remains. -/
theorem removeFirstById_id_free (todos : List Task) (i : Nat)
    (hN : (todos.map Task.id).Nodup) :
    ∀ u ∈ removeFirstById todos i, u.id ≠ i := by
  induction todos with
  | nil => intro u hu; cases hu
  | cons t ts ih =>
    rw [List.map_cons, List.nodup_cons] at hN
    intro u hu
    by_cases ht : t.id = i
    · rw [removeFirstById, if_pos ht] at hu
      intro he
      exact hN.1 (ht ▸ he ▸ List.mem_map_of_mem Task.id hu)
    · rw [removeFirstById, if_neg ht] at hu
      rcases List.mem_cons.mp hu with rfl | hmem
      · exact ht
      · exact ih hN.2 u hmem

/-- C3: recycling a stored task (with a due date) removes it from the
returned list and from the store, and appends to the bin a snapshot
with the task's id and `deletedAt` equal to the recycle time; the
refreshed store list is what is returned. -/
theorem delete_moves_task_to_bin (s : SysState) (T : Task) (dd : String) (now : Nat)
    (_hdue : T.dueDate = some dd)
    (hN : (s.store.todos.map Task.id).Nodup) (hT : T ∈ s.store.todos) :
    T ∉ (Storage.deleteTask s T.id now).1 ∧
    T ∉ (Storage.deleteTask s T.id now).2.store.todos ∧
    (Storage.deleteTask s T.id now).2.bin
      = s.bin.concat { task := T, deletedAt := now } ∧
    (Storage.deleteTask s T.id now).1
      = (Storage.deleteTask s T.id now).2.store.todos := by
  have hfind := find_by_id_of_nodup s.store.todos T hN hT
  have hdel : Storage.deleteTask s T.id now =
      (removeFirstById s.store.todos T.id,
        { store := { s.store with todos := removeFirstById s.store.todos T.id },
          bin := s.bin.concat { task := T, deletedAt := now } }) := by
    unfold Storage.deleteTask Todo.delete
    rw [hfind]
    rfl
  rw [hdel]
  refine ⟨?_, ?_, rfl, rfl⟩ <;>
    exact fun hmem => removeFirstById_id_free s.store.todos T.id hN T hmem rfl

/-- A concrete task and system state for the delete witnesses. -/
def taskW : Task := sampleTask 7 "w" (some "2024-01-05")

/-- A one-task store with an empty bin. -/
def sysW : SysState := { store := { todos := [taskW], nextId := 8 }, bin := [] }

/-- C3 (witness): recycling the concrete task of `sysW`. -/
theorem delete_moves_task_to_bin_witness :
    taskW ∉ (Storage.deleteTask sysW taskW.id 500).1 ∧
    taskW ∉ (Storage.deleteTask sysW taskW.id 500).2.store.todos ∧
    (Storage.deleteTask sysW taskW.id 500).2.bin
      = sysW.bin.concat { task := taskW, deletedAt := 500 } ∧
    (Storage.deleteTask sysW taskW.id 500).1
      = (Storage.deleteTask sysW taskW.id 500).2.store.todos :=
  delete_moves_task_to_bin sysW taskW "2024-01-05" 500 rfl (by decide) (by decide)

/-- C4: recycling an id absent from the store is a no-op — the store
and bin are unchanged and the current task list is returned. -/
theorem delete_absent_id_noop (s : SysState) (taskId now : Nat)
    (h : ∀ t ∈ s.store.todos, t.id ≠ taskId) :
    Storage.deleteTask s taskId now = (s.store.todos, s) := by
  unfold Storage.deleteTask
  rw [List.find?_eq_none.mpr (fun t ht => by simpa using h t ht)]

/-- C4 (witness): recycling id 999, absent from `sysW`. -/
theorem delete_absent_id_noop_witness :
    Storage.deleteTask sysW 999 500 = (sysW.store.todos, sysW) :=
  delete_absent_id_noop sysW 999 500 (by decide)

/-- C5: the Storage layer never propagates a transport failure: the
caught `getTasks` turns a failed read into an ordinary empty-list
return, and `deleteTask` always returns an ok best-effort list (that of
its final read, or of the read performed in its catch block). -/
theorem storage_never_throws :
    (∀ m : String, getTasksOutcome (NetResult.failed m) = Except.ok []) ∧
    (∀ ts : List Task, getTasksOutcome (NetResult.ok ts) = Except.ok ts) ∧
    (∀ (bin : List RecycledTask) (taskId now : Nat) (sc : DeleteScenario),
        ∃ (l : List Task) (b : List RecycledTask),
          deleteTaskOutcome bin taskId now sc = (Except.ok l, b) ∧
            (l = getTasksCaught sc.fetch2 ∨ l = getTasksCaught sc.fetchCatch)) := by
  refine ⟨fun m => rfl, fun ts => rfl, fun bin taskId now sc => ?_⟩
  have htry : (deleteTaskTry bin taskId now sc).1 = .ok (getTasksCaught sc.fetch2) ∨
      (deleteTaskTry bin taskId now sc).1 = .error "Failed to delete task" := by
    unfold deleteTaskTry
    cases (getTasksCaught sc.fetch1).find? (fun t => t.id = taskId) with
    | none => exact Or.inl rfl
    | some t =>
      cases sc.deleteOk with
      | true => exact Or.inl rfl
      | false => exact Or.inr rfl
  rcases hpair : deleteTaskTry bin taskId now sc with ⟨e, b⟩
  rw [hpair] at htry
  dsimp only at htry
  unfold deleteTaskOutcome
  rw [hpair]
  rcases htry with h | h <;> subst h
  · exact ⟨getTasksCaught sc.fetch2, b, rfl, Or.inl rfl⟩
  · exact ⟨getTasksCaught sc.fetchCatch, b, rfl, Or.inr rfl⟩

/-! ### Lemmas about the restore path -/

/-- In a bin whose ids are distinct, splicing out a member's id yields
exactly that member and the rest of the bin, which is free of its id. -/
theorem restoreFromBin_spec (bin : List RecycledTask) (R : RecycledTask)
    (hN : (bin.map (fun r => r.task.id)).Nodup) (hR : R ∈ bin) :
    ∃ l1 l2, bin = l1 ++ R :: l2 ∧
      restoreFromBin bin R.task.id = some (R, l1 ++ l2) ∧
      ∀ u ∈ l1 ++ l2, u.task.id ≠ R.task.id := by
  induction bin with
  | nil => cases hR
  | cons r rest ih =>
    rw [List.map_cons, List.nodup_cons] at hN
    by_cases hid : r.task.id = R.task.id
    · have hrR : R = r := by
        rcases List.mem_cons.mp hR with h | hmem
        · exact h
        · refine absurd ?_ hN.1
          rw [hid]
          exact List.mem_map_of_mem (fun x : RecycledTask => x.task.id) hmem
      subst hrR
      refine ⟨[], rest, rfl, ?_, ?_⟩
      · rw [restoreFromBin, if_pos rfl]
        rfl
      · intro u hu he
        refine hN.1 ?_
        rw [← he]
        exact List.mem_map_of_mem (fun x : RecycledTask => x.task.id) hu
    · have hmem : R ∈ rest := by
        rcases List.mem_cons.mp hR with h | hmem
        · subst h
          exact absurd rfl hid
        · exact hmem
      obtain ⟨l1, l2, hsplit, hrun, hfree⟩ := ih hN.2 hmem
      refine ⟨r :: l1, l2, by rw [hsplit, List.cons_append], ?_, ?_⟩
      · rw [restoreFromBin, if_neg hid, hrun]
        rfl
      · intro u hu
        rw [List.cons_append] at hu
        rcases List.mem_cons.mp hu with h | hu2
        · subst h
          exact hid
        · exact hfree u hu2

/-- C2 (amended): restoring a bin entry R (unique id in the bin,
non-empty title) re-creates a task whose title, description and dueDate
equal R's — but with no category, since the store's create drops the
submitted category — removes R from the bin, grows the active list by
exactly one and shrinks the bin by exactly one, returning the spliced
bin. -/
theorem restore_recreates_task (s : SysState) (R : RecycledTask) (now : Nat)
    (hN : (s.bin.map (fun r => r.task.id)).Nodup) (hR : R ∈ s.bin)
    (ht : R.task.title ≠ "") :
    ∃ newTask : Task,
      (Storage.restoreTask s R.task.id now).2.store.todos
          = s.store.todos ++ [newTask] ∧
      newTask.title = R.task.title ∧
      newTask.description = R.task.description ∧
      newTask.dueDate = R.task.dueDate ∧
      newTask.category = none ∧
      (Storage.restoreTask s R.task.id now).2.store.todos.length
          = s.store.todos.length + 1 ∧
      (Storage.restoreTask s R.task.id now).2.bin.length + 1 = s.bin.length ∧
      R ∉ (Storage.restoreTask s R.task.id now).2.bin ∧
      (Storage.restoreTask s R.task.id now).1
          = (Storage.restoreTask s R.task.id now).2.bin := by
  obtain ⟨l1, l2, hsplit, hrun, hfree⟩ := restoreFromBin_spec s.bin R hN hR
  have hrest : Storage.restoreTask s R.task.id now =
      (l1 ++ l2,
        { store := (Todo.create s.store (restorePayload R) now).2,
          bin := l1 ++ l2 }) := by
    unfold Storage.restoreTask
    rw [hrun]
    dsimp only
    unfold createTodoEndpoint
    rw [if_neg (by simpa [restorePayload] using ht)]
  rw [hrest]
  refine ⟨(Todo.create s.store (restorePayload R) now).1,
    by simp [Todo.create, List.concat_eq_append], rfl, rfl, rfl, rfl,
    by simp [Todo.create, List.concat_eq_append], ?_, ?_, rfl⟩
  · rw [hsplit]
    simp only [List.length_append, List.length_cons]
    omega
  · intro hmem
    exact hfree R hmem rfl

/-- A concrete recycled task carrying a category, for the restore
witness and counterexample. -/
def recycledWork : RecycledTask :=
  { task := { id := 5, title := "buy milk", description := "d",
              dueDate := some "2024-01-05", category := some "work",
              completed := true, createdAt := 10 },
    deletedAt := 50 }

/-- A system state whose bin holds `recycledWork`. -/
def sysR : SysState :=
  { store := { todos := [], nextId := 1 }, bin := [recycledWork] }

/-- C2 (witness): restoring the concrete entry of `sysR`. -/
theorem restore_recreates_task_witness :
    ∃ newTask : Task,
      (Storage.restoreTask sysR recycledWork.task.id 100).2.store.todos
          = sysR.store.todos ++ [newTask] ∧
      newTask.title = recycledWork.task.title ∧
      newTask.description = recycledWork.task.description ∧
      newTask.dueDate = recycledWork.task.dueDate ∧
      newTask.category = none ∧
      (Storage.restoreTask sysR recycledWork.task.id 100).2.store.todos.length
          = sysR.store.todos.length + 1 ∧
      (Storage.restoreTask sysR recycledWork.task.id 100).2.bin.length + 1
          = sysR.bin.length ∧
      recycledWork ∉ (Storage.restoreTask sysR recycledWork.task.id 100).2.bin ∧
      (Storage.restoreTask sysR recycledWork.task.id 100).1
          = (Storage.restoreTask sysR recycledWork.task.id 100).2.bin :=
  restore_recreates_task sysR recycledWork 100 (by decide) (by decide) (by decide)

/-- C2 (counterexample): the bin entry has category "work", but the
task re-created by restore carries no category at all — the claim that
restore preserves `category` fails. -/
theorem restore_drops_category_cex :
    recycledWork.task.category = some "work" ∧
      (Storage.restoreTask sysR 5 100).2.store.todos.map Task.category
        = [none] := by decide

/-- C9 (amended): create returns a task with a fresh id distinct from
every active id (given the store invariant that active ids are below
`nextId`), `completed = false`, `createdAt = now`, appended to the
store — but with no category field: the store ignores any submitted
category and sets no "none" default.  The id invariant is preserved. -/
theorem create_fresh_id_and_defaults (st : Store) (p : CreatePayload) (now : Nat)
    (hInv : ∀ t ∈ st.todos, t.id < st.nextId) :
    (Todo.create st p now).1.id ∉ st.todos.map Task.id ∧
    (Todo.create st p now).1.completed = false ∧
    (Todo.create st p now).1.createdAt = now ∧
    (Todo.create st p now).1.category = none ∧
    (Todo.create st p now).2.todos = st.todos ++ [(Todo.create st p now).1] ∧
    (∀ t ∈ (Todo.create st p now).2.todos, t.id < (Todo.create st p now).2.nextId) := by
  refine ⟨?_, rfl, rfl, rfl, by simp [Todo.create, List.concat_eq_append], ?_⟩
  · intro hmem
    obtain ⟨t, htm, hid⟩ := List.mem_map.mp hmem
    have h2 : t.id = st.nextId := hid
    exact absurd h2 (Nat.ne_of_lt (hInv t htm))
  · intro t htm
    have h2 : t ∈ st.todos ∨ t = (Todo.create st p now).1 := by
      have h3 := htm
      simp only [Todo.create, List.concat_eq_append, List.mem_append,
        List.mem_singleton] at h3 ⊢
      exact h3
    rcases h2 with h | h
    · exact Nat.lt_succ_of_lt (hInv t h)
    · subst h
      exact Nat.lt_succ_self st.nextId

/-- A store satisfying the id invariant, for the create witness. -/
def storeC : Store := { todos := [sampleTask 1 "a" none], nextId := 2 }

/-- C9 (witness): creating a task in the concrete store `storeC`. -/
theorem create_fresh_id_and_defaults_witness :
    (Todo.create storeC { title := "b" } 9).1.id ∉ storeC.todos.map Task.id ∧
    (Todo.create storeC { title := "b" } 9).1.completed = false ∧
    (Todo.create storeC { title := "b" } 9).1.createdAt = 9 ∧
    (Todo.create storeC { title := "b" } 9).1.category = none ∧
    (Todo.create storeC { title := "b" } 9).2.todos
        = storeC.todos ++ [(Todo.create storeC { title := "b" } 9).1] ∧
    (∀ t ∈ (Todo.create storeC { title := "b" } 9).2.todos,
        t.id < (Todo.create storeC { title := "b" } 9).2.nextId) :=
  create_fresh_id_and_defaults storeC { title := "b" } 9 (by decide)

/-- C9 (counterexample): the task returned by create has no category
field (`none`), not the claimed default string "none", even when the
request supplies no category. -/
theorem create_category_not_none_cex :
    (Todo.create { todos := [], nextId := 1 } { title := "a" } 0).1.category
      ≠ some "none" := by decide

/-! ### Lemmas about update -/

/-- The first-match replacement of `Todo.update` forces the updated
task's id to the path id and leaves the list's ids unchanged. -/
theorem updateList_spec (todos : List Task) (pathId : Nat) (u : UpdatePayload) :
    ∀ (t' : Task) (todos' : List Task),
      updateList todos pathId u = some (t', todos') →
        t'.id = pathId ∧ todos'.map Task.id = todos.map Task.id := by
  induction todos with
  | nil => intro t' todos' h; cases h
  | cons t rest ih =>
    intro t' todos' h
    rw [updateList] at h
    by_cases hid : t.id = pathId
    · rw [if_pos hid] at h
      injection h with h
      injection h with h1 h2
      subst h1
      subst h2
      exact ⟨rfl, by simp [mergeTodo, hid]⟩
    · rw [if_neg hid] at h
      cases hrec : updateList rest pathId u with
      | none => rw [hrec] at h; cases h
      | some p =>
        rw [hrec] at h
        injection h with h
        injection h with h1 h2
        obtain ⟨hid', hmap⟩ := ih p.1 p.2 (by rw [hrec])
        subst h1
        subst h2
        exact ⟨hid', by simp [hmap]⟩

/-- C10: `Todo.update` preserves a task's identity — whatever the
payload contains (even an `id` field), the updated todo's id equals the
path id, and the stored ids are unchanged. -/
theorem update_preserves_id (st : Store) (pathId : Nat) (u : UpdatePayload)
    (t' : Task) (st' : Store) (h : Todo.update st pathId u = some (t', st')) :
    t'.id = pathId ∧ st'.todos.map Task.id = st.todos.map Task.id := by
  unfold Todo.update at h
  cases hrec : updateList st.todos pathId u with
  | none => rw [hrec] at h; cases h
  | some p =>
    rw [hrec] at h
    injection h with h
    injection h with h1 h2
    obtain ⟨hid, hmap⟩ := updateList_spec st.todos pathId u p.1 p.2 (by rw [hrec])
    subst h1
    rw [← h2]
    exact ⟨hid, hmap⟩

/-- The stored task the update witness starts from. -/
def taskU : Task := sampleTask 1 "a" none

/-- The task expected after applying the witness payload. -/
def taskU' : Task := { taskU with title := "x" }

/-- C10 (witness): an update whose payload smuggles `id := 999` still
yields a todo with the path id 1 and unchanged stored ids. -/
theorem update_preserves_id_witness :
    taskU'.id = 1 ∧
      ([taskU'].map Task.id) = (([taskU] : List Task).map Task.id) :=
  update_preserves_id { todos := [taskU], nextId := 2 } 1
    { id := some 999, title := some "x" } taskU'
    { todos := [taskU'], nextId := 2 } (by decide)

/-! ### Lemmas about the month grid -/

/-- The weekday computation always lands in 0..6. -/
theorem dayOfWeek_lt_seven (y m d : Nat) : dayOfWeek y m d < 7 := by
  unfold dayOfWeek
  exact Nat.mod_lt _ (by decide)

/-- No month has more than 31 days. -/
theorem daysInMonth_le_31 (y m : Nat) : daysInMonth y m ≤ 31 := by
  unfold daysInMonth
  split <;> first | omega | (split <;> omega)

/-- C7: for every month the grid has exactly 42 cells — leading
other-month cells equal in number to the month's starting weekday
(Sunday = 0), then the month's days 1..totalDays, then other-month
filler — and for February 2024 (29 days, starting Thursday) the first 4
cells are other-month padding and day 1 is the 5th cell. -/
theorem monthGrid_structure :
    (∀ (year month : Nat) (today selected : YMD) (dwt : List String),
      (generateCalendar year month today selected dwt).length = 42 ∧
      ((generateCalendar year month today selected dwt).take
          (dayOfWeek year month 1)).all Cell.isOtherMonth = true ∧
      (((generateCalendar year month today selected dwt).drop
          (dayOfWeek year month 1)).take (daysInMonth year month)).map Cell.dayNum
        = List.range' 1 (daysInMonth year month) ∧
      (((generateCalendar year month today selected dwt).drop
          (dayOfWeek year month 1)).take (daysInMonth year month)).all
          (fun c => !c.isOtherMonth) = true ∧
      ((generateCalendar year month today selected dwt).drop
          (dayOfWeek year month 1 + daysInMonth year month)).all
          Cell.isOtherMonth = true) ∧
    (dayOfWeek 2024 2 1 = 4 ∧ daysInMonth 2024 2 = 29 ∧
      (generateCalendar 2024 2 ⟨2024, 3, 15⟩ ⟨2024, 3, 15⟩ []).length = 42 ∧
      (generateCalendar 2024 2 ⟨2024, 3, 15⟩ ⟨2024, 3, 15⟩ []).take 5
        = [Cell.otherMonth 28, Cell.otherMonth 29, Cell.otherMonth 30,
           Cell.otherMonth 31, Cell.current 1 false false false]) := by
  constructor
  · intro year month today selected dwt
    have hs := dayOfWeek_lt_seven year month 1
    have ht := daysInMonth_le_31 year month
    refine ⟨?_, ?_, ?_, ?_, ?_⟩
    · unfold generateCalendar
      simp only [List.length_append, leadingCells, currentCells, trailingCells,
        List.length_map, List.length_range]
      omega
    · unfold generateCalendar
      rw [List.append_assoc, List.take_left' (by simp [leadingCells])]
      simp [leadingCells, List.all_eq_true, Cell.isOtherMonth]
    · unfold generateCalendar
      rw [List.append_assoc, List.drop_left' (by simp [leadingCells]),
        List.take_left' (by simp [currentCells]),
        List.range'_eq_map_range, currentCells, List.map_map]
      refine List.map_congr_left ?_
      intro k _
      simp [Function.comp, Cell.dayNum, Nat.add_comm]
    · unfold generateCalendar
      rw [List.append_assoc, List.drop_left' (by simp [leadingCells]),
        List.take_left' (by simp [currentCells])]
      simp [currentCells, List.all_eq_true, Cell.isOtherMonth]
    · unfold generateCalendar
      rw [List.drop_left' (by simp [leadingCells, currentCells])]
      simp [trailingCells, List.all_eq_true, Cell.isOtherMonth]
  · exact ⟨by decide, by decide, by decide, by decide⟩

end TodoApp
